import Mathlib

/-!
Shallow embedding of the "Conjugation Dojo" timing quiz engine:
chart generation (constants.ts), the scoring/session state machine (App.tsx)
and the per-frame note scheduler / collision resolver (GameScene.tsx).
Real-number arithmetic of the source is modelled exactly over ℚ; the
source's strict comparisons `distanceTo(p) < r` and `length() < s` with
nonnegative thresholds are modelled by the equivalent squared comparisons.
-/

namespace ConjugationDojo

/-- Session status enumeration (types.ts `GameStatus`). -/
inductive GameStatus where
  | LOADING
  | IDLE
  | PLAYING
  | GAME_OVER
  | VICTORY
deriving DecidableEq, Repr

/-- Which hand must cut a note (types.ts `HandType`). -/
inductive HandType where
  | left
  | right
deriving DecidableEq, Repr

/-- Cut direction enumeration (types.ts `CutDirection`). -/
inductive CutDirection where
  | UP
  | DOWN
  | LEFT
  | RIGHT
  | ANY
deriving DecidableEq, Repr

/-- A 3D vector with exact rational coordinates (models THREE.Vector3). -/
structure Vec3 where
  x : ℚ
  y : ℚ
  z : ℚ
deriving DecidableEq, Repr

/-- Squared Euclidean distance; `distanceTo p < r` (r ≥ 0) iff `distSq _ p < r^2`. -/
def distSq (a b : Vec3) : ℚ :=
  (a.x - b.x) ^ 2 + (a.y - b.y) ^ 2 + (a.z - b.z) ^ 2

/-- Squared norm; `v.length() < s` (s ≥ 0) iff `normSq v < s^2`. -/
def normSq (v : Vec3) : ℚ :=
  v.x ^ 2 + v.y ^ 2 + v.z ^ 2

/-- A chart note (types.ts `NoteData`); the optional JS booleans
`hit?`/`missed?` are Bools defaulting to false (undefined is falsy). -/
structure NoteData where
  id : String
  time : ℚ
  lineIndex : ℕ
  lineLayer : ℕ
  type : HandType
  cutDirection : CutDirection
  text : String
  isCorrect : Bool
  instruction : String
  hit : Bool := false
  missed : Bool := false
  hitTime : Option ℚ := none
deriving DecidableEq, Repr

/-- Latest hand tracking sample (types.ts `HandPositions`). -/
structure HandPositions where
  left : Option Vec3
  right : Option Vec3
  leftVelocity : Vec3
  rightVelocity : Vec3

-- Game world constants (constants.ts)
def TRACK_LENGTH : ℚ := 50
def SPAWN_Z : ℚ := -35
def PLAYER_Z : ℚ := 0
def MISS_Z : ℚ := 5
def NOTE_SPEED : ℚ := 8
def LANE_WIDTH : ℚ := 6 / 5
def LAYER_HEIGHT : ℚ := 4 / 5
def NOTE_SIZE : ℚ := 3 / 5

/-- constants.ts `LANE_X_POSITIONS`. -/
def LANE_X_POSITIONS : List ℚ :=
  [(-3 / 2) * LANE_WIDTH, (-1 / 2) * LANE_WIDTH, (1 / 2) * LANE_WIDTH, (3 / 2) * LANE_WIDTH]

/-- constants.ts `LAYER_Y_POSITIONS`. -/
def LAYER_Y_POSITIONS : List ℚ := [1, 9 / 5, 13 / 5]

def SONG_BPM : ℚ := 140

def BEAT_TIME : ℚ := 60 / SONG_BPM

/-- A curriculum entry (constants.ts `QuestionSet`). -/
structure QuestionSet where
  instruction : String
  correct : String
  distractors : List String
deriving DecidableEq, Repr

/-- constants.ts `PHRASE_CURRICULUM`. -/
def PHRASE_CURRICULUM : List QuestionSet :=
  [ ⟨"Yesterday, I ___ to the store.", "WENT", ["GO", "GONE", "GOING"]⟩
  , ⟨"She ___ a beautiful song.", "SANG", ["SING", "SUNG", "SINGED"]⟩
  , ⟨"We have ___ the game!", "WON", ["WIN", "WINNED", "WAN"]⟩
  , ⟨"The sun ___ in the East.", "RISES", ["ROSE", "RISE", "RISING"]⟩
  , ⟨"I am ___ a book right now.", "READING", ["READ", "READS", "RED"]⟩
  , ⟨"They ___ pizza last night.", "ATE", ["EAT", "EATED", "EATING"]⟩
  , ⟨"He ___ his keys yesterday.", "LOST", ["LOSE", "LOSES", "LOSED"]⟩
  , ⟨"My dog ___ very fast.", "RUNS", ["RUN", "RAN", "RUNNING"]⟩
  , ⟨"We ___ happy to see you.", "ARE", ["IS", "AM", "BE"]⟩
  , ⟨"She ___ English well.", "SPEAKS", ["SPEAK", "SPOKE", "SPOKEN"]⟩
  , ⟨"I ___ my homework already.", "DID", ["DO", "DONE", "DOES"]⟩
  , ⟨"It ___ heavily last winter.", "SNOWED", ["SNOW", "SNOWS", "SNOWING"]⟩
  , ⟨"Opposite of: HAPPY", "SAD", ["GLAD", "JOY", "FUN"]⟩
  , ⟨"Plural of: CHILD", "CHILDREN", ["CHILDS", "KIDS", "BABY"]⟩
  , ⟨"Past of: BUY", "BOUGHT", ["BUYED", "BUYS", "BUYING"]⟩ ]

/-- `Math.min(3, 1 + Math.floor(difficultyMultiplier))`, as a count
(the loop body runs 0 times when the value is not positive). -/
def numDistractors (d : ℚ) : ℕ := (min 3 (1 + ⌊d⌋)).toNat

/-- The correct-answer note pushed for a question (constants.ts lines 75-85). -/
def mkCorrectNote (q : QuestionSet) (time : ℚ) (lanes : List ℕ) (idc : ℕ) : NoteData :=
  { id := "note-" ++ toString idc
  , time := time
  , lineIndex := lanes.getD 0 0
  , lineLayer := 0
  , type := if lanes.getD 0 0 < 2 then .left else .right
  , cutDirection := .ANY
  , text := q.correct
  , isCorrect := true
  , instruction := q.instruction }

/-- The i-th distractor note pushed for a question (constants.ts lines 92-102). -/
def mkDistractorNote (q : QuestionSet) (time : ℚ) (lanes : List ℕ) (idc i : ℕ) : NoteData :=
  { id := "note-" ++ toString idc
  , time := time
  , lineIndex := lanes.getD (i + 1) 0
  , lineLayer := if i % 2 = 0 then 1 else 0
  , type := if lanes.getD (i + 1) 0 < 2 then .left else .right
  , cutDirection := .ANY
  , text := q.distractors.getD i ""
  , isCorrect := false
  , instruction := q.instruction }

/-- All notes pushed for one question: the correct answer, then the
distractor loop, which breaks once `i ≥ q.distractors.length`. -/
def questionNotes (q : QuestionSet) (d : ℚ) (time : ℚ) (lanes : List ℕ) (idc : ℕ) :
    List NoteData :=
  let cnt := min (numDistractors d) q.distractors.length
  mkCorrectNote q time lanes idc ::
    (List.range cnt).map (fun i => mkDistractorNote q time lanes (idc + 1 + i) i)

/-- The `PHRASE_CURRICULUM.forEach` body of `generateDemoChart`:
`k` is the question index (used to draw this question's lane shuffle from
the randomness source), `beat` the current beat, `idc` the id counter. -/
def genFrom (d : ℚ) (rand : ℕ → List ℕ) :
    List QuestionSet → ℕ → ℕ → ℕ → List NoteData
  | [], _, _, _ => []
  | q :: qs, k, beat, idc =>
    let time := (beat : ℚ) * BEAT_TIME
    let lanes := rand k
    let cnt := min (numDistractors d) q.distractors.length
    questionNotes q d time lanes idc ++ genFrom d rand qs (k + 1) (beat + 10) (idc + 1 + cnt)

/-- The final `notes.sort((a, b) => a.time - b.time)` (a stable sort by time). -/
def sortByTime (l : List NoteData) : List NoteData :=
  l.insertionSort (fun a b => a.time ≤ b.time)

/-- `generateDemoChart` parametrised by its curriculum and by the lane
shuffles the ambient randomness produces: `rand k` is the permutation of
`[0, 1, 2, 3]` that `[0,1,2,3].sort(() => Math.random() - 0.5)` yields for
question `k`.  The beat counter starts at 8 and advances by 10 per question. -/
def generateChart (cur : List QuestionSet) (d : ℚ) (rand : ℕ → List ℕ) : List NoteData :=
  sortByTime (genFrom d rand cur 0 8 0)

/-- constants.ts `generateDemoChart`, on the fixed curriculum. -/
def generateDemoChart (d : ℚ) (rand : ℕ → List ℕ) : List NoteData :=
  generateChart PHRASE_CURRICULUM d rand

-- Scoring state machine (App.tsx)

/-- Health gained on a correct hit (`Math.min(100, h + 5)`). -/
def healAmount : ℤ := 5

/-- Health lost on hitting a wrong answer (`h - 10`). -/
def wrongHitPenalty : ℤ := 10

/-- Health lost on missing the correct answer (`h - 15`). -/
def missPenalty : ℤ := 15

/-- The scoring/session state owned by App.tsx. -/
structure SessionState where
  score : ℤ
  combo : ℕ
  multiplier : ℤ
  health : ℤ
  status : GameStatus
  instruction : String
deriving DecidableEq, Repr

/-- App.tsx `endGame`. -/
def endGame (victory : Bool) (s : SessionState) : SessionState :=
  { s with status := if victory then .VICTORY else .GAME_OVER }

/-- App.tsx `handleNoteHit`.  The score update `setScore(s => s + 100 * multiplier)`
reads the `multiplier` captured by the callback closure, i.e. the multiplier in
effect BEFORE this event, not the one just derived from the incremented combo. -/
def handleNoteHit (s : SessionState) (note : NoteData) (goodCut : Bool) : SessionState :=
  if goodCut && note.isCorrect then
    let newCombo := s.combo + 1
    let newMultiplier : ℤ := if newCombo > 10 then 4 else if newCombo > 5 then 2 else 1
    { s with
      combo := newCombo
      multiplier := newMultiplier
      score := s.score + 100 * s.multiplier
      health := min 100 (s.health + healAmount) }
  else
    let newHealth := s.health - wrongHitPenalty
    if newHealth ≤ 0 then
      endGame false { s with combo := 0, multiplier := 1, health := 0 }
    else
      { s with combo := 0, multiplier := 1, health := newHealth }

/-- App.tsx `handleNoteMiss`. -/
def handleNoteMiss (s : SessionState) (note : NoteData) : SessionState :=
  if note.isCorrect then
    let newHealth := s.health - missPenalty
    if newHealth ≤ 0 then
      endGame false { s with combo := 0, multiplier := 1, health := 0 }
    else
      { s with combo := 0, multiplier := 1, health := newHealth }
  else
    s

/-- The state `startGame` resets to when play begins. -/
def initialState : SessionState :=
  { score := 0, combo := 0, multiplier := 1, health := 100
  , status := .PLAYING, instruction := "Get Ready..." }

/-- A decision emitted by the collision resolver / scheduler. -/
inductive GameEvent where
  | hit (note : NoteData) (goodCut : Bool)
  | miss (note : NoteData)

/-- Feed one decision to the scoring state machine. -/
def stepEvent (s : SessionState) : GameEvent → SessionState
  | .hit n g => handleNoteHit s n g
  | .miss n => handleNoteMiss s n

/-- Scoring state after a sequence of decisions from the start of play. -/
def runEvents (events : List GameEvent) : SessionState :=
  events.foldl stepEvent initialState

/-- Optionally apply a decision (no decision leaves the state unchanged). -/
def applyDecision (s : SessionState) : Option GameEvent → SessionState
  | none => s
  | some e => stepEvent s e

-- Note scheduler / collision resolver (GameScene.tsx useFrame, lines 125-181)

/-- The hand required by a note (`note.type === 'left' ? hands.left : hands.right`). -/
def requiredHand (hands : HandPositions) : HandType → Option Vec3
  | .left => hands.left
  | .right => hands.right

/-- The velocity sample of the required hand. -/
def requiredVel (hands : HandPositions) : HandType → Vec3
  | .left => hands.leftVelocity
  | .right => hands.rightVelocity

/-- `LANE_X_POSITIONS[note.lineIndex]`. -/
def laneX (i : ℕ) : ℚ := LANE_X_POSITIONS.getD i 0

/-- `LAYER_Y_POSITIONS[note.lineLayer]`. -/
def layerY (i : ℕ) : ℚ := LAYER_Y_POSITIONS.getD i 0

/-- Hitbox radius (`< 1.0`). -/
def hitRadius : ℚ := 1

/-- Minimum hand speed for a cut to register (`speed < 0.5` is ignored). -/
def minSpeed : ℚ := 1 / 2

/-- One iteration of the per-note loop of GameScene.tsx useFrame
(lines 125-181): resolved notes are skipped; a note past `MISS_Z` is
missed; inside the collision band, with the required hand tracked, close
enough and moving fast enough, the note is hit with
`goodCut = note.isCorrect`.  Returns the updated note and the decision
emitted this frame, if any. -/
def tickNote (time : ℚ) (hands : HandPositions) (note : NoteData) :
    NoteData × Option GameEvent :=
  if note.hit || note.missed then (note, none)
  else
    let timeDiff := note.time - time
    let currentZ := PLAYER_Z - timeDiff * NOTE_SPEED
    if MISS_Z < currentZ then
      let missedNote := { note with missed := true }
      (missedNote, some (.miss missedNote))
    else if PLAYER_Z - 3 / 2 < currentZ ∧ currentZ < PLAYER_Z + 1 then
      match requiredHand hands note.type with
      | none => (note, none)
      | some hp =>
        let notePos : Vec3 := ⟨laneX note.lineIndex, layerY note.lineLayer, currentZ⟩
        if distSq hp notePos < hitRadius ^ 2 then
          if normSq (requiredVel hands note.type) < minSpeed ^ 2 then
            (note, none)
          else
            let hitNote := { note with hit := true, hitTime := some time }
            (hitNote, some (.hit hitNote note.isCorrect))
        else (note, none)
    else (note, none)

/-- What the loop keeps in `activeNotesRef` for one note: an
already-resolved note is skipped by `continue` (kept as is); a note
resolved during this tick is spliced out; an unresolved note stays. -/
def keepNote (time : ℚ) (hands : HandPositions) (note : NoteData) : Option NoteData :=
  if note.hit || note.missed then some note
  else
    let m := (tickNote time hands note).1
    if m.hit || m.missed then none else some m

/-- The active set after one frame of the update-and-collide loop. -/
def frameStep (time : ℚ) (hands : HandPositions) (active : List NoteData) : List NoteData :=
  active.filterMap (keepNote time hands)

/-- A single note followed through a whole session of frame ticks. -/
def runTicks (ticks : List (ℚ × HandPositions)) (note : NoteData) : NoteData :=
  ticks.foldl (fun n th => (tickNote th.1 th.2 n).1) note

-- Concrete sample data used by witnesses and counterexamples

/-- A correct-answer note of the first curriculum question. -/
def sampleNoteCorrect : NoteData :=
  { id := "note-0", time := 24 / 7, lineIndex := 0, lineLayer := 0, type := .left
  , cutDirection := .ANY, text := "WENT", isCorrect := true
  , instruction := "Yesterday, I ___ to the store." }

/-- A distractor note of the first curriculum question. -/
def sampleNoteWrong : NoteData :=
  { id := "note-1", time := 24 / 7, lineIndex := 1, lineLayer := 1, type := .left
  , cutDirection := .ANY, text := "GO", isCorrect := false
  , instruction := "Yesterday, I ___ to the store." }

/-- A mid-session state with 10 health, as in the game-over scenario. -/
def lowHealthState : SessionState :=
  { score := 500, combo := 3, multiplier := 1, health := 10
  , status := .PLAYING, instruction := "Yesterday, I ___ to the store." }

/-- A mid-session state at combo 10; ten consecutive correct hits leave the
multiplier at 2 (thresholds: combo > 10 gives 4, combo > 5 gives 2). -/
def comboTenState : SessionState :=
  { score := 1300, combo := 10, multiplier := 2, health := 100
  , status := .PLAYING, instruction := "Yesterday, I ___ to the store." }

-- Scoring state machine lemmas

/-- The inductive invariant of the scoring state. -/
def ScoreInv (s : SessionState) : Prop :=
  0 ≤ s.health ∧ s.health ≤ 100 ∧ 0 ≤ s.score ∧ 1 ≤ s.multiplier

/-- The state the penalty paths produce when health is driven to 0. -/
def gameOverOf (s : SessionState) : SessionState :=
  { s with combo := 0, multiplier := 1, health := 0, status := GameStatus.GAME_OVER }

/-- Evaluation of `handleNoteMiss` on a correct note. -/
lemma handleNoteMiss_correct (s : SessionState) (n : NoteData)
    (hc : n.isCorrect = true) :
    handleNoteMiss s n =
      if s.health - missPenalty ≤ 0 then gameOverOf s
      else { s with combo := 0, multiplier := 1, health := s.health - missPenalty } := by
  simp only [handleNoteMiss, hc, eq_self_iff_true, if_true]
  split_ifs <;> rfl

/-- Evaluation of `handleNoteHit` when the cut does not count as good. -/
lemma handleNoteHit_bad (s : SessionState) (n : NoteData) (g : Bool)
    (hng : (g && n.isCorrect) = false) :
    handleNoteHit s n g =
      if s.health - wrongHitPenalty ≤ 0 then gameOverOf s
      else { s with combo := 0, multiplier := 1, health := s.health - wrongHitPenalty } := by
  simp only [handleNoteHit, hng, Bool.false_eq_true, if_false]
  split_ifs <;> rfl

/-- Evaluation of `handleNoteHit` on a good cut of a correct note. -/
lemma handleNoteHit_good (s : SessionState) (n : NoteData)
    (hc : n.isCorrect = true) :
    handleNoteHit s n true =
      { s with combo := s.combo + 1
             , multiplier :=
                 if s.combo + 1 > 10 then 4 else if s.combo + 1 > 5 then 2 else 1
             , score := s.score + 100 * s.multiplier
             , health := min 100 (s.health + healAmount) } := by
  simp only [handleNoteHit, hc, Bool.and_self, eq_self_iff_true, if_true]

lemma handleNoteHit_inv (s : SessionState) (n : NoteData) (g : Bool)
    (h : ScoreInv s) : ScoreInv (handleNoteHit s n g) := by
  rcases h with ⟨h1, h2, h3, h4⟩
  simp only [handleNoteHit, endGame, healAmount, wrongHitPenalty]
  split_ifs <;> dsimp only [ScoreInv] <;> omega

lemma handleNoteMiss_inv (s : SessionState) (n : NoteData)
    (h : ScoreInv s) : ScoreInv (handleNoteMiss s n) := by
  rcases h with ⟨h1, h2, h3, h4⟩
  simp only [handleNoteMiss, endGame, missPenalty]
  split_ifs <;> dsimp only [ScoreInv] <;> omega

lemma stepEvent_inv (s : SessionState) (e : GameEvent)
    (h : ScoreInv s) : ScoreInv (stepEvent s e) := by
  cases e with
  | hit n g => exact handleNoteHit_inv s n g h
  | miss n => exact handleNoteMiss_inv s n h

lemma foldl_stepEvent_inv (events : List GameEvent) (s : SessionState)
    (h : ScoreInv s) : ScoreInv (events.foldl stepEvent s) := by
  induction events generalizing s with
  | nil => exact h
  | cons e es ih => exact ih (stepEvent s e) (stepEvent_inv s e h)

lemma scoreInv_initial : ScoreInv initialState := by
  refine ⟨?_, ?_, ?_, ?_⟩ <;> decide

/-- C2: at every tick of every session the scoring state satisfies
0 ≤ health ≤ 100 and 0 ≤ score: the bounds hold after any sequence of
Hit/Miss decisions applied from the start-of-play state. -/
theorem c2_health_score_bounds (events : List GameEvent) :
    0 ≤ (runEvents events).health ∧ (runEvents events).health ≤ 100 ∧
      0 ≤ (runEvents events).score := by
  have h := foldl_stepEvent_inv events initialState scoreInv_initial
  exact ⟨h.1, h.2.1, h.2.2.1⟩

/-- C3: when health reaches 0 the session ends in defeat, and the
transition is idempotent: missing the correct note with health at most the
miss penalty zeroes health and sets status to game_over; a second miss of
a correct note, or a further wrong-answer hit, leaves that terminal state
unchanged; and applying `endGame false` several times equals applying it
once. -/
theorem c3_game_over_idempotent (s : SessionState) (n : NoteData)
    (hc : n.isCorrect = true) (hh : s.health ≤ missPenalty) :
    ((handleNoteMiss s n).health = 0 ∧ (handleNoteMiss s n).status = GameStatus.GAME_OVER) ∧
      handleNoteMiss (handleNoteMiss s n) n = handleNoteMiss s n ∧
      handleNoteHit (handleNoteMiss s n) n false = handleNoteMiss s n ∧
      endGame false (endGame false s) = endGame false s := by
  have hmp : s.health - missPenalty ≤ 0 := by omega
  have key : handleNoteMiss s n = gameOverOf s := by
    rw [handleNoteMiss_correct s n hc, if_pos hmp]
  refine ⟨by rw [key]; exact ⟨rfl, rfl⟩, ?_, ?_, rfl⟩
  · rw [key, handleNoteMiss_correct (gameOverOf s) n hc,
      if_pos (show (gameOverOf s).health - missPenalty ≤ 0 by
        simp [gameOverOf, missPenalty])]
    rfl
  · rw [key, handleNoteHit_bad (gameOverOf s) n false (by simp),
      if_pos (show (gameOverOf s).health - wrongHitPenalty ≤ 0 by
        simp [gameOverOf, wrongHitPenalty])]
    rfl

/-- C3 witness: at the concrete 10-health state, a miss of the correct
note zeroes health and ends the session in game_over. -/
theorem c3_witness :
    (handleNoteMiss lowHealthState sampleNoteCorrect).health = 0 ∧
      (handleNoteMiss lowHealthState sampleNoteCorrect).status = GameStatus.GAME_OVER :=
  (c3_game_over_idempotent lowHealthState sampleNoteCorrect rfl (by decide)).1

/-- C4 (amended): a Hit with goodCut = true on a correct note at combo 10
makes combo 11 and multiplier 4, but the score increases by
100 × the multiplier in effect BEFORE the hit (the source reads the
closure-captured multiplier), not by 100 × the new multiplier. -/
theorem c4_combo_ten_hit (s : SessionState) (n : NoteData)
    (hc : n.isCorrect = true) (hcombo : s.combo = 10) :
    (handleNoteHit s n true).combo = 11 ∧
      (handleNoteHit s n true).multiplier = 4 ∧
      (handleNoteHit s n true).score = s.score + 100 * s.multiplier := by
  simp [handleNoteHit, hc, hcombo]

/-- C4 counterexample: at the reachable state with combo 10 and
multiplier 2, a good cut of a correct note yields combo 11 and
multiplier 4 as claimed, but the score increases by 200, not 400. -/
theorem c4_counterexample :
    (handleNoteHit comboTenState sampleNoteCorrect true).combo = 11 ∧
      (handleNoteHit comboTenState sampleNoteCorrect true).multiplier = 4 ∧
      (handleNoteHit comboTenState sampleNoteCorrect true).score -
          comboTenState.score = 200 ∧
      (200 : ℤ) ≠ 400 := by
  refine ⟨?_, ?_, ?_, by decide⟩ <;> decide

/-- C4 witness: the amended statement evaluated at the concrete
combo-10 state: the score increase is 100 × the pre-hit multiplier. -/
theorem c4_witness :
    (handleNoteHit comboTenState sampleNoteCorrect true).score =
      comboTenState.score + 100 * comboTenState.multiplier :=
  (c4_combo_ten_hit comboTenState sampleNoteCorrect rfl rfl).2.2

/-- C7: missing a correct note resets combo to 0 and multiplier to 1 and
lowers health by the miss penalty (15, strictly larger than the
wrong-hit penalty 10), clamped at 0; at health 10 this leaves health 0
and status game_over. -/
theorem c7_miss_correct_penalty (s : SessionState) (n : NoteData)
    (hc : n.isCorrect = true) :
    wrongHitPenalty < missPenalty ∧
      (handleNoteMiss s n).combo = 0 ∧
      (handleNoteMiss s n).multiplier = 1 ∧
      (handleNoteMiss s n).health = max 0 (s.health - missPenalty) ∧
      (s.health = 10 →
        (handleNoteMiss s n).health = 0 ∧
          (handleNoteMiss s n).status = GameStatus.GAME_OVER) := by
  rw [handleNoteMiss_correct s n hc]
  refine ⟨by norm_num [wrongHitPenalty, missPenalty], ?_, ?_, ?_, ?_⟩ <;>
      split_ifs with h
  · rfl
  · rfl
  · rfl
  · rfl
  · simp only [gameOverOf]; omega
  · simp only []; omega
  · intro h10
    exact ⟨rfl, rfl⟩
  · intro h10
    simp only [missPenalty] at h
    omega

/-- C7 witness: the concrete 10-health scenario. -/
theorem c7_witness :
    (handleNoteMiss lowHealthState sampleNoteCorrect).health =
      max 0 (lowHealthState.health - missPenalty) :=
  (c7_miss_correct_penalty lowHealthState sampleNoteCorrect rfl).2.2.2.1

/-- C9: a Miss of an incorrect note is a complete no-op on the scoring
state: the state, hence score, combo, multiplier, health and status, is
unchanged. -/
theorem c9_miss_incorrect_noop (s : SessionState) (n : NoteData)
    (hc : n.isCorrect = false) :
    handleNoteMiss s n = s ∧
      (handleNoteMiss s n).score = s.score ∧
      (handleNoteMiss s n).combo = s.combo ∧
      (handleNoteMiss s n).multiplier = s.multiplier ∧
      (handleNoteMiss s n).health = s.health ∧
      (handleNoteMiss s n).status = s.status := by
  have h : handleNoteMiss s n = s := by
    unfold handleNoteMiss
    simp [hc]
  exact ⟨h, by rw [h], by rw [h], by rw [h], by rw [h], by rw [h]⟩

/-- C9 witness: missing the concrete distractor note changes nothing. -/
theorem c9_witness :
    handleNoteMiss lowHealthState sampleNoteWrong = lowHealthState :=
  (c9_miss_incorrect_noop lowHealthState sampleNoteWrong rfl).1

-- Collision resolver / scheduler lemmas

/-- A frame with no tracked hands. -/
def noHands : HandPositions :=
  { left := none, right := none, leftVelocity := ⟨0, 0, 0⟩, rightVelocity := ⟨0, 0, 0⟩ }

/-- A hand sample close to the first lane but moving below the speed gate. -/
def slowHands : HandPositions :=
  { left := some ⟨-3 / 2, 1, 0⟩, right := none
  , leftVelocity := ⟨1 / 5, 0, 0⟩, rightVelocity := ⟨0, 0, 0⟩ }

/-- The correct sample note already resolved as hit. -/
def resolvedNote : NoteData := { sampleNoteCorrect with hit := true }

/-- The resolution-state check precedes any transition: an already-resolved
note passes through the loop body untouched, emitting nothing. -/
lemma tickNote_resolved (t : ℚ) (hands : HandPositions) (n : NoteData)
    (h : n.hit = true ∨ n.missed = true) : tickNote t hands n = (n, none) := by
  rcases h with h | h <;>
    simp only [tickNote, h, Bool.or_true, Bool.true_or, if_true]

/-- Processing an unresolved note never produces a note that is both hit
and missed. -/
lemma tickNote_not_both (t : ℚ) (hands : HandPositions) (n : NoteData)
    (h1 : n.hit = false) (h2 : n.missed = false) :
    ¬((tickNote t hands n).1.hit = true ∧ (tickNote t hands n).1.missed = true) := by
  simp only [tickNote, h1, h2, Bool.or_self, Bool.false_eq_true, if_false]
  by_cases hz : MISS_Z < PLAYER_Z - (n.time - t) * NOTE_SPEED
  · rw [if_pos hz]
    simp [h1]
  · rw [if_neg hz]
    by_cases hband : PLAYER_Z - 3 / 2 < PLAYER_Z - (n.time - t) * NOTE_SPEED ∧
        PLAYER_Z - (n.time - t) * NOTE_SPEED < PLAYER_Z + 1
    · rw [if_pos hband]
      cases hE : requiredHand hands n.type with
      | none => simp [hE, h1]
      | some hp =>
        simp only [hE]
        by_cases hd : distSq hp ⟨laneX n.lineIndex, layerY n.lineLayer,
            PLAYER_Z - (n.time - t) * NOTE_SPEED⟩ < hitRadius ^ 2
        · rw [if_pos hd]
          by_cases hs : normSq (requiredVel hands n.type) < minSpeed ^ 2
          · rw [if_pos hs]
            simp [h1]
          · rw [if_neg hs]
            simp [h2]
        · rw [if_neg hd]
          simp [h1]
    · rw [if_neg hband]
      simp [h1]

lemma runTicks_resolved (ticks : List (ℚ × HandPositions)) (n : NoteData)
    (h : n.hit = true ∨ n.missed = true) : runTicks ticks n = n := by
  induction ticks with
  | nil => rfl
  | cons th ths ih =>
    simp only [runTicks, List.foldl_cons]
    rw [tickNote_resolved th.1 th.2 n h]
    exact ih

lemma runTicks_not_both (ticks : List (ℚ × HandPositions)) (n : NoteData)
    (h : ¬(n.hit = true ∧ n.missed = true)) :
    ¬((runTicks ticks n).hit = true ∧ (runTicks ticks n).missed = true) := by
  induction ticks generalizing n with
  | nil => exact h
  | cons th ths ih =>
    simp only [runTicks, List.foldl_cons]
    apply ih
    by_cases hres : n.hit = true ∨ n.missed = true
    · rw [tickNote_resolved th.1 th.2 n hres]
      exact h
    · simp only [not_or, Bool.not_eq_true] at hres
      exact tickNote_not_both th.1 th.2 n hres.1 hres.2

/-- A note resolved during a tick is spliced out of the active set: when
the active set holds only unresolved notes, so does the next one. -/
lemma frameStep_unresolved (t : ℚ) (hands : HandPositions) (active : List NoteData)
    (h : ∀ m ∈ active, m.hit = false ∧ m.missed = false) :
    ∀ m ∈ frameStep t hands active, m.hit = false ∧ m.missed = false := by
  intro m hm
  rw [frameStep, List.mem_filterMap] at hm
  obtain ⟨a, ha, hk⟩ := hm
  obtain ⟨ha1, ha2⟩ := h a ha
  simp only [keepNote, ha1, ha2, Bool.or_self, Bool.false_eq_true, if_false] at hk
  split_ifs at hk with hres
  obtain rfl := Option.some.inj hk
  simpa [not_or] using hres

/-- C1: over any whole session, a note reaches at most one of hit/missed:
an already-resolved note is skipped unchanged by the loop (late collision
tests or miss checks are no-ops), an unresolved note never ends up both
hit and missed, and a note resolved during a tick leaves the active set
that same tick. -/
theorem c1_note_resolution (ticks : List (ℚ × HandPositions)) (t : ℚ)
    (hands : HandPositions) (active : List NoteData) (n : NoteData) :
    (n.hit = true ∨ n.missed = true → tickNote t hands n = (n, none)) ∧
      (n.hit = true ∨ n.missed = true → runTicks ticks n = n) ∧
      (¬(n.hit = true ∧ n.missed = true) →
        ¬((runTicks ticks n).hit = true ∧ (runTicks ticks n).missed = true)) ∧
      ((∀ m ∈ active, m.hit = false ∧ m.missed = false) →
        ∀ m ∈ frameStep t hands active, m.hit = false ∧ m.missed = false) :=
  ⟨tickNote_resolved t hands n, runTicks_resolved ticks n,
    runTicks_not_both ticks n, frameStep_unresolved t hands active⟩

/-- C1 witness: a late tick on an already-hit note changes nothing and
emits no decision. -/
theorem c1_witness : tickNote 10 noHands resolvedNote = (resolvedNote, none) :=
  (c1_note_resolution [] 10 noHands [] resolvedNote).1 (Or.inl rfl)

/-- C8: a contact inside the interception band, within the hit radius but
below the minimum hand speed, is ignored entirely: the note is returned
unchanged (still active), no decision is emitted, and feeding the (empty)
decision to the scoring machine changes no state. -/
theorem c8_slow_touch_ignored (t : ℚ) (hands : HandPositions) (n : NoteData) (hp : Vec3)
    (h1 : n.hit = false) (h2 : n.missed = false)
    (hband : PLAYER_Z - 3 / 2 < PLAYER_Z - (n.time - t) * NOTE_SPEED ∧
      PLAYER_Z - (n.time - t) * NOTE_SPEED < PLAYER_Z + 1)
    (hhand : requiredHand hands n.type = some hp)
    (hdist : distSq hp ⟨laneX n.lineIndex, layerY n.lineLayer,
      PLAYER_Z - (n.time - t) * NOTE_SPEED⟩ < hitRadius ^ 2)
    (hspeed : normSq (requiredVel hands n.type) < minSpeed ^ 2) :
    tickNote t hands n = (n, none) ∧
      ∀ s : SessionState, applyDecision s (tickNote t hands n).2 = s := by
  have hz : ¬(MISS_Z < PLAYER_Z - (n.time - t) * NOTE_SPEED) := by
    intro hcon
    have hb2 := hband.2
    simp only [PLAYER_Z, MISS_Z] at hcon hb2
    linarith
  have key : tickNote t hands n = (n, none) := by
    simp only [tickNote, h1, h2, Bool.or_self, Bool.false_eq_true, if_false]
    rw [if_neg hz, if_pos hband]
    simp only [hhand]
    rw [if_pos hdist, if_pos hspeed]
  exact ⟨key, fun s => by rw [key]; rfl⟩

/-- C8 witness: the concrete scenario of the spec, distance 3/10 below
radius 1 and speed 1/5 below threshold 1/2: no decision, note unchanged. -/
theorem c8_witness :
    tickNote (24 / 7) slowHands sampleNoteCorrect = (sampleNoteCorrect, none) :=
  (c8_slow_touch_ignored (24 / 7) slowHands sampleNoteCorrect ⟨-3 / 2, 1, 0⟩
    rfl rfl (by norm_num [PLAYER_Z, NOTE_SPEED, sampleNoteCorrect])
    rfl
    (by norm_num [distSq, laneX, layerY, LANE_X_POSITIONS, LAYER_Y_POSITIONS,
      LANE_WIDTH, PLAYER_Z, NOTE_SPEED, hitRadius, sampleNoteCorrect])
    (by norm_num [normSq, requiredVel, slowHands, minSpeed, sampleNoteCorrect])).1

-- Chart generator lemmas

/-- The spec scenario's one-question curriculum (first curriculum entry). -/
def wentQuestionSet : QuestionSet :=
  ⟨"Yesterday, I ___ to the store.", "WENT", ["GO", "GONE", "GOING"]⟩

lemma getD_lt_four (l : List ℕ) (hl : l.Perm [0, 1, 2, 3]) (j : ℕ) :
    l.getD j 0 < 4 := by
  have hmem : ∀ x ∈ l, x < 4 := by
    intro x hx
    have hx4 := hl.mem_iff.mp hx
    simp only [List.mem_cons, List.mem_singleton, List.not_mem_nil, or_false] at hx4
    omega
  rcases Nat.lt_or_ge j l.length with h | h
  · rw [List.getD_eq_getElem?_getD, List.getElem?_eq_getElem h]
    exact hmem _ (List.getElem_mem h)
  · rw [List.getD_eq_getElem?_getD, List.getElem?_eq_none h]
    decide

lemma getD_ne_of_ne (l : List ℕ) (hl : l.Perm [0, 1, 2, 3]) (i j : ℕ)
    (hi : i < 4) (hj : j < 4) (hij : i ≠ j) : l.getD i 0 ≠ l.getD j 0 := by
  have hlen : l.length = 4 := by rw [hl.length_eq]; rfl
  have hnd : l.Nodup := hl.nodup_iff.mpr (by decide)
  have hi' : i < l.length := by omega
  have hj' : j < l.length := by omega
  rw [List.getD_eq_getElem?_getD, List.getElem?_eq_getElem hi',
    List.getD_eq_getElem?_getD, List.getElem?_eq_getElem hj']
  simp only [Option.getD_some]
  intro heq
  exact hij ((hnd.getElem_inj_iff).mp heq)

lemma numDistractors_le_three (d : ℚ) : numDistractors d ≤ 3 := by
  unfold numDistractors
  omega

/-- Fields of the notes generated for one question. -/
lemma mem_questionNotes_fields (q : QuestionSet) (d : ℚ) (time : ℚ)
    (lanes : List ℕ) (idc : ℕ) (n : NoteData)
    (hn : n ∈ questionNotes q d time lanes idc) :
    n.time = time ∧ n.lineLayer < 2 ∧ ∃ j, j < 4 ∧ n.lineIndex = lanes.getD j 0 := by
  simp only [questionNotes, List.mem_cons, List.mem_map, List.mem_range] at hn
  rcases hn with rfl | ⟨i, hi, rfl⟩
  · exact ⟨rfl, by show (0 : ℕ) < 2; decide, 0, by decide, rfl⟩
  · refine ⟨rfl, ?_, i + 1, ?_, rfl⟩
    · show (if i % 2 = 0 then 1 else 0) < 2
      split_ifs <;> decide
    · have hc := numDistractors_le_three d
      have : i < min (numDistractors d) q.distractors.length := hi
      omega

/-- The notes of one question are placed in pairwise-distinct lanes. -/
lemma questionNotes_pairwise (q : QuestionSet) (d : ℚ) (time : ℚ)
    (lanes : List ℕ) (idc : ℕ) (hl : lanes.Perm [0, 1, 2, 3]) :
    (questionNotes q d time lanes idc).Pairwise
      (fun a b => a.lineIndex ≠ b.lineIndex) := by
  have hcnt : min (numDistractors d) q.distractors.length ≤ 3 :=
    le_trans (min_le_left _ _) (numDistractors_le_three d)
  simp only [questionNotes]
  rw [List.pairwise_cons]
  constructor
  · intro b hb
    rw [List.mem_map] at hb
    obtain ⟨i, hi, rfl⟩ := hb
    rw [List.mem_range] at hi
    show lanes.getD 0 0 ≠ lanes.getD (i + 1) 0
    exact getD_ne_of_ne lanes hl 0 (i + 1) (by omega) (by omega) (by omega)
  · rw [List.pairwise_map]
    refine List.Pairwise.imp_of_mem ?_ (List.pairwise_lt_range _)
    intro i j hi hj hij
    rw [List.mem_range] at hi hj
    show lanes.getD (i + 1) 0 ≠ lanes.getD (j + 1) 0
    exact getD_ne_of_ne lanes hl (i + 1) (j + 1) (by omega) (by omega) (by omega)

lemma beat_time_pos : (0 : ℚ) < BEAT_TIME := by
  norm_num [BEAT_TIME, SONG_BPM]

/-- Every note generated from beat `beat` onwards arrives no earlier. -/
lemma mem_genFrom_time_ge (d : ℚ) (rand : ℕ → List ℕ) :
    ∀ (qs : List QuestionSet) (k beat idc : ℕ),
      ∀ n ∈ genFrom d rand qs k beat idc, (beat : ℚ) * BEAT_TIME ≤ n.time := by
  intro qs
  induction qs with
  | nil =>
    intro k beat idc n hn
    simp [genFrom] at hn
  | cons q qs ih =>
    intro k beat idc n hn
    simp only [genFrom, List.mem_append] at hn
    rcases hn with hn | hn
    · rw [(mem_questionNotes_fields q d _ (rand k) idc n hn).1]
    · have h1 := ih (k + 1) (beat + 10) _ n hn
      have h2 : ((beat : ℕ) : ℚ) * BEAT_TIME ≤ (((beat + 10 : ℕ)) : ℚ) * BEAT_TIME := by
        have hbt := beat_time_pos
        have hb : ((beat : ℕ) : ℚ) ≤ (((beat + 10 : ℕ)) : ℚ) := by
          push_cast
          linarith
        exact mul_le_mul_of_nonneg_right hb hbt.le
      linarith

/-- Lane and layer bounds for every generated note. -/
lemma mem_genFrom_bounds (d : ℚ) (rand : ℕ → List ℕ)
    (hr : ∀ k, (rand k).Perm [0, 1, 2, 3]) :
    ∀ (qs : List QuestionSet) (k beat idc : ℕ),
      ∀ n ∈ genFrom d rand qs k beat idc, n.lineIndex < 4 ∧ n.lineLayer < 2 := by
  intro qs
  induction qs with
  | nil =>
    intro k beat idc n hn
    simp [genFrom] at hn
  | cons q qs ih =>
    intro k beat idc n hn
    simp only [genFrom, List.mem_append] at hn
    rcases hn with hn | hn
    · obtain ⟨_, hl2, j, hj, hx⟩ := mem_questionNotes_fields q d _ (rand k) idc n hn
      rw [hx]
      exact ⟨getD_lt_four (rand k) (hr k) j, hl2⟩
    · exact ih (k + 1) (beat + 10) _ n hn

/-- Notes sharing an arrival time sit in pairwise-distinct lanes. -/
lemma genFrom_pairwise (d : ℚ) (rand : ℕ → List ℕ)
    (hr : ∀ k, (rand k).Perm [0, 1, 2, 3]) :
    ∀ (qs : List QuestionSet) (k beat idc : ℕ),
      (genFrom d rand qs k beat idc).Pairwise
        (fun a b => a.time = b.time → a.lineIndex ≠ b.lineIndex) := by
  intro qs
  induction qs with
  | nil => intro k beat idc; exact List.Pairwise.nil
  | cons q qs ih =>
    intro k beat idc
    simp only [genFrom]
    rw [List.pairwise_append]
    refine ⟨(questionNotes_pairwise q d _ (rand k) idc (hr k)).imp
      (fun hne => fun _ => hne), ih _ _ _, ?_⟩
    intro a ha b hb hab
    exfalso
    have ta := (mem_questionNotes_fields q d _ (rand k) idc a ha).1
    have tb := mem_genFrom_time_ge d rand qs (k + 1) (beat + 10) _ b hb
    have hlt : ((beat : ℕ) : ℚ) * BEAT_TIME < (((beat + 10 : ℕ)) : ℚ) * BEAT_TIME := by
      have hbt := beat_time_pos
      have hb10 : ((beat : ℕ) : ℚ) < (((beat + 10 : ℕ)) : ℚ) := by
        push_cast
        linarith
      exact mul_lt_mul_of_pos_right hb10 hbt
    rw [← hab, ta] at tb
    linarith

/-- C10: every note of a demo chart has lineIndex in 0..3 and lineLayer in
0..1, so every `LANE_X_POSITIONS[lineIndex]` and
`LAYER_Y_POSITIONS[lineLayer]` lookup is in bounds, and notes sharing one
arrival time occupy pairwise-distinct lanes. -/
theorem c10_lane_layer_bounds (d : ℚ) (rand : ℕ → List ℕ)
    (hr : ∀ k, (rand k).Perm [0, 1, 2, 3]) (hd : 0 ≤ d) :
    (∀ n ∈ generateDemoChart d rand,
        n.lineIndex < 4 ∧ n.lineLayer < 2 ∧
          n.lineIndex < LANE_X_POSITIONS.length ∧
          n.lineLayer < LAYER_Y_POSITIONS.length) ∧
      (generateDemoChart d rand).Pairwise
        (fun a b => a.time = b.time → a.lineIndex ≠ b.lineIndex) := by
  have hperm : List.Perm (sortByTime (genFrom d rand PHRASE_CURRICULUM 0 8 0))
      (genFrom d rand PHRASE_CURRICULUM 0 8 0) :=
    List.perm_insertionSort _ _
  constructor
  · intro n hn
    have hn' : n ∈ genFrom d rand PHRASE_CURRICULUM 0 8 0 := hperm.mem_iff.mp hn
    obtain ⟨h4, h2⟩ :=
      mem_genFrom_bounds d rand hr PHRASE_CURRICULUM 0 8 0 n hn'
    have h3 : LAYER_Y_POSITIONS.length = 3 := rfl
    exact ⟨h4, h2, h4, by omega⟩
  · refine (List.Perm.pairwise_iff ?_ hperm).mpr
      (genFrom_pairwise d rand hr PHRASE_CURRICULUM 0 8 0)
    intro a b hab heq
    exact (hab heq.symm).symm

/-- C10 witness: the pairwise-distinct-lane property of the demo chart at
difficulty 1 with the identity lane shuffle. -/
theorem c10_witness :
    (generateDemoChart 1 (fun _ => [0, 1, 2, 3])).Pairwise
      (fun a b => a.time = b.time → a.lineIndex ≠ b.lineIndex) :=
  (c10_lane_layer_bounds 1 (fun _ => [0, 1, 2, 3])
    (fun _ => List.Perm.refl _) (by norm_num)).2

/-- C6: the chart generator is deterministic given its randomness source:
the same curriculum, difficulty and lane-shuffle source produce the same
note sequence. -/
theorem c6_determinism (cur : List QuestionSet) (d : ℚ) (r1 r2 : ℕ → List ℕ)
    (h : ∀ k, r1 k = r2 k) :
    generateChart cur d r1 = generateChart cur d r2 := by
  rw [funext h]

/-- C6 witness: two syntactically different but extensionally equal
shuffle sources yield the same chart. -/
theorem c6_witness :
    generateChart [wentQuestionSet] 1 (fun _ => [0, 1, 2, 3]) =
      generateChart [wentQuestionSet] 1 (fun _ => List.range 4) :=
  c6_determinism [wentQuestionSet] 1 _ _ (fun _ => by decide)

/-- Closed form of the chart for the one-question curriculum at
difficulty 1: one correct note and two distractors. -/
lemma generateChart_went (rand : ℕ → List ℕ) :
    generateChart [wentQuestionSet] 1 rand =
      [ mkCorrectNote wentQuestionSet (((8 : ℕ)) * BEAT_TIME) (rand 0) 0
      , mkDistractorNote wentQuestionSet (((8 : ℕ)) * BEAT_TIME) (rand 0) 1 0
      , mkDistractorNote wentQuestionSet (((8 : ℕ)) * BEAT_TIME) (rand 0) 2 1 ] := by
  have hnum : min (numDistractors 1) (wentQuestionSet.distractors.length) = 2 := rfl
  simp [generateChart, genFrom, questionNotes, hnum, sortByTime,
    List.insertionSort, List.orderedInsert, List.range_succ,
    mkCorrectNote, mkDistractorNote]

/-- C5 counterexample: with the one-question curriculum (3 distractors
available) at difficulty 1 the chart has 3 notes, not 2: the distractor
count is min(3, 1 + floor(1)) = 2, so the chart is 1 correct + 2
distractors. -/
theorem c5_counterexample :
    (generateChart [wentQuestionSet] 1 (fun _ => [0, 1, 2, 3])).length = 3 ∧
      (3 : ℕ) ≠ 2 :=
  ⟨by rw [generateChart_went]; rfl, by decide⟩

/-- C5 (amended): the one-question chart at difficulty 1 has exactly 3
notes — the correct answer plus min(3, 1+floor(1)) = 2 distractors — all
sharing one arrival time and placed in pairwise-distinct lanes. -/
theorem c5_single_question_chart (rand : ℕ → List ℕ)
    (hr : ∀ k, (rand k).Perm [0, 1, 2, 3]) :
    (generateChart [wentQuestionSet] 1 rand).length = 3 ∧
      (∀ n ∈ generateChart [wentQuestionSet] 1 rand,
        n.time = ((8 : ℕ)) * BEAT_TIME) ∧
      ((generateChart [wentQuestionSet] 1 rand).filter
        (fun n => n.isCorrect)).length = 1 ∧
      (generateChart [wentQuestionSet] 1 rand).Pairwise
        (fun a b => a.lineIndex ≠ b.lineIndex) := by
  rw [generateChart_went rand]
  have h0 := hr 0
  refine ⟨rfl, ?_, rfl, ?_⟩
  · intro n hn
    simp only [List.mem_cons, List.not_mem_nil, or_false] at hn
    rcases hn with rfl | rfl | rfl <;> rfl
  · refine List.Pairwise.cons ?_ (List.Pairwise.cons ?_ (List.Pairwise.cons ?_ List.Pairwise.nil))
    · intro m hm
      simp only [List.mem_cons, List.not_mem_nil, or_false] at hm
      rcases hm with rfl | rfl
      · exact getD_ne_of_ne (rand 0) h0 0 1 (by omega) (by omega) (by omega)
      · exact getD_ne_of_ne (rand 0) h0 0 2 (by omega) (by omega) (by omega)
    · intro m hm
      simp only [List.mem_cons, List.not_mem_nil, or_false] at hm
      rcases hm with rfl
      exact getD_ne_of_ne (rand 0) h0 1 2 (by omega) (by omega) (by omega)
    · intro m hm
      exact absurd hm (List.not_mem_nil m)

/-- C5 witness: the amended count at the identity shuffle. -/
theorem c5_witness :
    (generateChart [wentQuestionSet] 1 (fun _ => [0, 1, 2, 3])).length = 3 :=
  (c5_single_question_chart (fun _ => [0, 1, 2, 3]) (fun _ => List.Perm.refl _)).1

end ConjugationDojo
